import Mathlib

/-!
Shallow embedding of the Clash output generator of `subconverter-rs`
(`src/generator/exports/proxy_to_clash.rs`) and of the web API handlers
(`src/web_handlers/web_api.rs`), together with theorems settling the
frozen claims about the natural-language specification.

External collaborators that live outside the two embedded source files
(`serde_yaml` parsing/serialization, `convert_ruleset`, `group_generate`,
`convert_proxy_groups`, `url_safe_base64_encode`, the proxy serializer
`ClashProxyOutput::from`) are passed as function parameters: the embedded
code only forwards to them, exactly as the Rust code does.

Strings are processed over their character lists with structural
recursion so that every definition evaluates inside the kernel; each
helper mirrors the corresponding Rust `&str` method.
-/

/-- Character-list core of Rust's `str::split(c)`: split at every occurrence
of the separator character; always returns at least one (possibly empty)
piece. -/
def splitOnChar (c : Char) : List Char → List (List Char)
  | [] => [[]]
  | x :: xs =>
    let r := splitOnChar c xs
    if x = c then [] :: r
    else
      match r with
      | [] => [[x]]
      | h :: t => (x :: h) :: t

/-- Rust `str::split(c)` on `String`. -/
def splitStr (c : Char) (s : String) : List String :=
  (splitOnChar c s.data).map (fun cs => ⟨cs⟩)

/-- Rust `str::trim` (drop whitespace from both ends). -/
def trimStr (s : String) : String :=
  ⟨((s.data.dropWhile Char.isWhitespace).reverse.dropWhile Char.isWhitespace).reverse⟩

/-- Rust `str::starts_with(pat)`. -/
def startsWithStr (s pat : String) : Bool :=
  pat.data.isPrefixOf s.data

/-- Rust `str::ends_with(pat)`. -/
def endsWithStr (s pat : String) : Bool :=
  pat.data.isSuffixOf s.data

/-- Rust slicing `s[n..]` (drop the first `n` characters; the embedded code
only slices at ASCII boundaries, where bytes and characters agree). -/
def dropStr (s : String) (n : Nat) : String :=
  ⟨s.data.drop n⟩

/-- Drop the last `n` characters (used for `strip_suffix`). -/
def dropRightStr (s : String) (n : Nat) : String :=
  ⟨s.data.take (s.data.length - n)⟩

/-- Rust `str::is_empty`. -/
def isEmptyStr (s : String) : Bool :=
  s.data.isEmpty

/-- Shallow YAML value tree, the embedding of `serde_yaml::Value`.
Mapping keys in every code path of the embedded file are strings, so the
mapping carries string keys; key order is significant (`serde_yaml`'s
`Mapping` is an order-preserving map). -/
inductive YVal where
  | null
  | bool (b : Bool)
  | num (n : Int)
  | str (s : String)
  | seq (xs : List YVal)
  | map (kvs : List (String × YVal))

/-- First-match association lookup, the embedding of `Mapping::get` with a
string key. -/
def lookupKV : List (String × YVal) → String → Option YVal
  | [], _ => none
  | (k0, v0) :: rest, k => if k0 = k then some v0 else lookupKV rest k

/-- `Mapping::insert` semantics of an order-preserving map: an existing key
keeps its position and gets the new value; a new key is appended. -/
def insertKV : List (String × YVal) → String → YVal → List (String × YVal)
  | [], k, v => [(k, v)]
  | (k0, v0) :: rest, k, v =>
    if k0 = k then (k0, v) :: rest else (k0, v0) :: insertKV rest k v

/-- `Mapping::remove` for a string key (removes the first occurrence). -/
def removeKV : List (String × YVal) → String → List (String × YVal)
  | [], _ => []
  | (k0, v0) :: rest, k => if k0 = k then rest else (k0, v0) :: removeKV rest k

/-- `yaml_node.get(key)` on a `serde_yaml::Value`: `None` unless the value is
a mapping containing the key. -/
def yamlGet (v : YVal) (k : String) : Option YVal :=
  match v with
  | .map kvs => lookupKV kvs k
  | _ => none

/-- The `as_mapping_mut` + `insert` pattern: inserts into a mapping, leaves
every other value unchanged. -/
def insertIfMapping (v : YVal) (k : String) (x : YVal) : YVal :=
  match v with
  | .map kvs => .map (insertKV kvs k x)
  | _ => v

/-- The `as_mapping_mut` + `remove`-if-null pattern of the inline-rule
branch (`for key in ["rules", "Rule"] { if map.get(key).is_null() remove }`). -/
def removeIfNull (v : YVal) (k : String) : YVal :=
  match v with
  | .map kvs =>
    match lookupKV kvs k with
    | some .null => .map (removeKV kvs k)
    | _ => .map kvs
  | _ => v

/-- `Value::is_null`. -/
def yamlIsNull (v : YVal) : Bool :=
  match v with
  | .null => true
  | _ => false

/-- Name extraction used by the group merger: the element must be a mapping
whose `name` entry is a string. -/
def yamlNameOf (v : YVal) : Option String :=
  match v with
  | .map kvs =>
    match lookupKV kvs "name" with
    | some (.str s) => some s
    | _ => none
  | _ => none

/-- The proxy-type tag of a proxy descriptor (`ProxyType`). -/
inductive ProxyType where
  | shadowsocks
  | shadowsocksR
  | vmess
  | trojan
  | snell
  | http
  | https
  | socks5
  | wireguard
  | hysteria
  | unknown
deriving DecidableEq

/-- The fields of a proxy descriptor (`Proxy`) consumed by the embedded
code: remark, the SSR capability fields, the Snell version, plus the
identifying host/port/password carried through to serialization. -/
structure Proxy where
  proxy_type : ProxyType
  remark : String
  hostname : String
  port : Nat
  encrypt_method : Option String
  password : Option String
  protocol : Option String
  obfs : Option String
  snell_version : Nat

/-- The fields of `ExtraSettings` read by the embedded code.  The field
`managed_config_base` embeds `managed_config_prefix` (the base URL used to
build ruleset provider URLs). -/
structure ExtraSettings where
  udp : Option Bool
  tfo : Option Bool
  skip_cert_verify : Option Bool
  append_proxy_type : Bool
  filter_deprecated : Bool
  clash_new_field_name : Bool
  clash_script : Bool
  nodelist : Bool
  enable_rule_generator : Bool
  overwrite_original_rules : Bool
  clash_proxies_style : String
  clash_proxy_groups_style : String
  managed_config_base : String

/-- One extra proxy-group configuration (`ProxyGroupConfig`): the fields
used by `proxy_to_clash_yaml` are the name, the member patterns and the
provider list. -/
structure ProxyGroupConfig where
  name : String
  proxies : List String
  using_provider : List String

/-- Ruleset format tag (`RulesetType`); it is only forwarded to the
external converter. -/
inductive RulesetType where
  | surge
  | quanx
  | clashDomain
  | clashIpcidr
  | clashClassical
deriving DecidableEq

/-- One `RulesetContent`: target group, source path, typed path, update
interval and the raw rule text (`get_rule_content()` returns the stored
content). -/
structure RulesetContent where
  group : String
  rule_path : String
  rule_path_typed : String
  update_interval : Nat
  rule_type : RulesetType
  content : String

/-- CLASH_SSR_CIPHERS: SSR ciphers accepted by vanilla Clash. -/
def CLASH_SSR_CIPHERS : List String :=
  ["aes-128-cfb", "aes-192-cfb", "aes-256-cfb",
   "aes-128-ctr", "aes-192-ctr", "aes-256-ctr",
   "aes-128-ofb", "aes-192-ofb", "aes-256-ofb",
   "des-cfb", "bf-cfb", "cast5-cfb", "rc4-md5",
   "chacha20", "chacha20-ietf", "salsa20",
   "camellia-128-cfb", "camellia-192-cfb", "camellia-256-cfb",
   "idea-cfb", "rc2-cfb", "seed-cfb"]

/-- CLASHR_PROTOCOLS: SSR protocols accepted by ClashR. -/
def CLASHR_PROTOCOLS : List String :=
  ["origin", "auth_sha1_v4", "auth_aes128_md5", "auth_aes128_sha1",
   "auth_chain_a", "auth_chain_b"]

/-- CLASHR_OBFS: SSR obfuscation modes accepted by ClashR. -/
def CLASHR_OBFS : List String :=
  ["plain", "http_simple", "http_post", "random_head",
   "tls1.2_ticket_auth", "tls1.2_ticket_fastauth"]

/-- Modelled from the spec: `process_remark(remark, existing_list, false)`
(its implementation is outside the excerpt, in
`generator/config/remark.rs`) deduplicates a remark against an existing
list; on collision an external rule appends a discriminator.  The model
appends a fixed discriminator when the remark is already present. -/
def process_remark (remark : String) (existing : List String) : String :=
  if remark ∈ existing then remark ++ " 2" else remark

/-- The remark before deduplication: prefixed with `[<type>] ` when
`append_proxy_type` is set.  `tyName` stands for the external `Display`
implementation of `ProxyType`. -/
def prefixedRemark (tyName : ProxyType → String) (ext : ExtraSettings) (p : Proxy) : String :=
  if ext.append_proxy_type then "[" ++ tyName p.proxy_type ++ "] " ++ p.remark else p.remark

/-- The `should_skip` decision of `proxy_to_clash_yaml` (lines 474-520):
the match arms in source order, with fall-through when a guard fails. -/
def shouldSkip (clashR : Bool) (ext : ExtraSettings) (p : Proxy) : Bool :=
  if p.proxy_type = ProxyType.snell ∧ p.snell_version ≥ 4 then true
  else if p.proxy_type = ProxyType.shadowsocks ∧ ext.filter_deprecated = true
          ∧ p.encrypt_method = some "chacha20" then true
  else if p.proxy_type = ProxyType.shadowsocksR ∧ ext.filter_deprecated = true then
    if (clashR = false ∧ p.encrypt_method.getD "" ∉ CLASH_SSR_CIPHERS)
        ∨ p.protocol.getD "" ∉ CLASHR_PROTOCOLS
        ∨ p.obfs.getD "" ∉ CLASHR_OBFS then true else false
  else if p.proxy_type = ProxyType.unknown ∨ p.proxy_type = ProxyType.https then true
  else false

/-- The per-node loop of `proxy_to_clash_yaml` (lines 461-538).  Returns
the serialized kept proxies and the final remark deduplication list.
`emit` stands for the external
`ClashProxyOutput::from(copy.apply_default_values(ext.udp, ext.tfo, ext.skip_cert_verify))`
serialization of the proxy copy carrying the processed remark. -/
def processNodes (tyName : ProxyType → String) (emit : Proxy → YVal)
    (ext : ExtraSettings) (clashR : Bool) :
    List Proxy → List String → List YVal × List String
  | [], acc => ([], acc)
  | p :: ps, acc =>
    let remark := process_remark (prefixedRemark tyName ext p) acc
    let acc' := acc ++ [remark]
    let rest := processNodes tyName emit ext clashR ps acc'
    if shouldSkip clashR ext p then rest
    else (emit { p with remark := remark } :: rest.1, rest.2)

/-- Reference accumulation of the remark list over ALL input nodes,
independent of the keep/skip decision. -/
def remarksAccum (tyName : ProxyType → String) (ext : ExtraSettings) :
    List Proxy → List String → List String
  | [], acc => acc
  | p :: ps, acc =>
    remarksAccum tyName ext ps (acc ++ [process_remark (prefixedRemark tyName ext p) acc])

/-- Formalization of the claim that only KEPT proxies feed the remark
deduplication list: the same loop, but pushing the remark only when the
proxy is kept. -/
def keptOnlyProcess (tyName : ProxyType → String) (emit : Proxy → YVal)
    (ext : ExtraSettings) (clashR : Bool) :
    List Proxy → List String → List YVal × List String
  | [], acc => ([], acc)
  | p :: ps, acc =>
    let remark := process_remark (prefixedRemark tyName ext p) acc
    if shouldSkip clashR ext p then keptOnlyProcess tyName emit ext clashR ps acc
    else
      let rest := keptOnlyProcess tyName emit ext clashR ps (acc ++ [remark])
      (emit { p with remark := remark } :: rest.1, rest.2)

/-- The per-group member resolution of `proxy_to_clash_yaml` (lines
577-588): expand every member pattern with `group_generate` (passed as
`gg`, closing over the emitted proxy set and the settings), then inject
`DIRECT` when the expansion is empty and the group uses no providers. -/
def resolveGroupMembers (gg : String → List String) (g : ProxyGroupConfig) : List String :=
  let ns := g.proxies.flatMap gg
  if ns = [] ∧ g.using_provider = [] then ["DIRECT"] else ns

/-- A generated proxy group as the merger sees it: the `name` field of the
`ClashProxyGroupOutput` plus its `serde_yaml::to_value` serialization. -/
structure GenGroup where
  name : String
  yaml : YVal

/-- The inner replacement loop of the group merger (lines 597-615): find
the first existing element that is a mapping whose `name` equals the
generated group's name, and replace it in place; `none` when no element
matches. -/
def replaceFirst (g : GenGroup) : List YVal → Option (List YVal)
  | [] => none
  | e :: es =>
    if yamlNameOf e = some g.name then some (g.yaml :: es)
    else
      match replaceFirst g es with
      | some es' => some (e :: es')
      | none => none

/-- One iteration of the merge loop (lines 595-623): replace the first
same-named existing group, else append the generated group. -/
def mergeStep (os : List YVal) (g : GenGroup) : List YVal :=
  match replaceFirst g os with
  | some os' => os'
  | none => os ++ [g.yaml]

/-- The group merge of `proxy_to_clash_yaml`: fold the generated groups
over the existing group sequence. -/
def mergeGroups (orig : List YVal) (gen : List GenGroup) : List YVal :=
  gen.foldl mergeStep orig

/-- Formalization of the CLAIM's wording for the group merge: a generated
group whose name equals the name of an existing TEMPLATE group replaces
that group at its original index; every other generated group is appended
after all existing groups, in order. -/
def claimMergeGroups (orig : List YVal) (gen : List GenGroup) : List YVal :=
  orig.map (fun e =>
    (((gen.find? (fun g => yamlNameOf e = some g.name)).map GenGroup.yaml).getD e))
  ++ (gen.filter (fun g => ! orig.any (fun e => yamlNameOf e = some g.name))).map GenGroup.yaml

/-- One emitted rule provider of the script synthesizer
(`ScriptRuleProvider`). -/
structure ScriptRuleProvider where
  name : String
  behavior : String
  request_type : Nat
  group : String
  label : String
  typed_path : String
  interval : Nat
deriving DecidableEq

/-- Per-ruleset script layout (`ScriptRuleLayout`). -/
structure ScriptRuleLayout where
  classical : Option ScriptRuleProvider
  domain : Option ScriptRuleProvider
  ipcidr : Option ScriptRuleProvider
deriving DecidableEq

/-- Accumulator of the single pass of `build_clash_script_parts` over the
ruleset array: providers, layouts, the GeoIP table and the final group. -/
structure ScriptAcc where
  providers : List ScriptRuleProvider
  layouts : List ScriptRuleLayout
  geoips : List (String × String)
  final_group : String

/-- Whether a line of converted rule text is skipped by the flag scan:
empty after trimming, or a `#`, `;` or `//` comment. -/
def isSkippedLine (line : String) : Bool :=
  isEmptyStr line || startsWithStr line "#" || startsWithStr line ";"
    || startsWithStr line "//"

/-- The first comma-separated token of a line, trimmed (the rule type). -/
def ruleTypeTok (line : String) : String :=
  trimStr ((splitStr ',' line).headD "")

/-- The `has_domain` flag of the scan over converted rule lines (lines
252-270). -/
def hasDomainRules (converted : String) : Bool :=
  (splitStr '\n' converted).any (fun raw =>
    let line := trimStr raw
    if isSkippedLine line then false
    else
      let rt := ruleTypeTok line
      rt = "DOMAIN" ∨ rt = "DOMAIN-SUFFIX" ∨ rt = "DOMAIN-KEYWORD")

/-- The `has_ipcidr` flag of the same scan. -/
def hasIpcidrRules (converted : String) : Bool :=
  (splitStr '\n' converted).any (fun raw =>
    let line := trimStr raw
    if isSkippedLine line then false
    else ruleTypeTok line = "IP-CIDR")

/-- `provider_base_name` (lines 272-285): the last `/`-segment of
`rule_path`, with a trailing `.list` stripped when present. -/
def providerBaseName (path : String) : String :=
  let seg := ((splitStr '/' path).getLast?).getD path
  if endsWithStr seg ".list" then dropRightStr seg 5 else seg

/-- One iteration of the ruleset loop of `build_clash_script_parts`
(lines 227-341).  `conv` stands for the external `convert_ruleset`. -/
def scriptStep (conv : String → RulesetType → String) (dflt : Nat)
    (acc : ScriptAcc) (r : RulesetContent) : ScriptAcc :=
  if isEmptyStr r.content then acc
  else if startsWithStr r.content "[]" then
    let inline := trimStr (dropStr r.content 2)
    if startsWithStr inline "GEOIP," then
      match (splitStr ',' inline).get? 1 with
      | some code => { acc with geoips := acc.geoips ++ [(trimStr code, r.group)] }
      | none => acc
    else if inline = "FINAL" ∨ inline = "MATCH" then { acc with final_group := r.group }
    else acc
  else
    let converted := conv r.content r.rule_type
    if isEmptyStr (trimStr converted) then acc
    else
      let hd := hasDomainRules converted
      let hi := hasIpcidrRules converted
      let base := providerBaseName r.rule_path
      let interval := if r.update_interval > 0 then r.update_interval else dflt
      if base = "MOO" ∨ base = "Download" ∨ (hd = false ∧ hi = false) then
        let p : ScriptRuleProvider :=
          ⟨base, "classical", 6, r.group, "rule", r.rule_path_typed, interval⟩
        { acc with providers := acc.providers ++ [p],
                   layouts := acc.layouts ++ [⟨some p, none, none⟩] }
      else
        let dom : List ScriptRuleProvider :=
          if hd then [⟨base ++ "_domain", "domain", 3, r.group, "DOMAIN rule",
                       r.rule_path_typed, interval⟩]
          else []
        let ipc : List ScriptRuleProvider :=
          if hi ∧ base ≠ "Apple" then
            [⟨base ++ "_ipcidr", "ipcidr", 4, r.group, "IP rule",
              r.rule_path_typed, interval⟩]
          else []
        { acc with providers := acc.providers ++ dom ++ ipc,
                   layouts := acc.layouts ++ [⟨none, dom.head?, ipc.head?⟩] }

/-- The full pass of `build_clash_script_parts` over the ruleset array. -/
def scriptScan (conv : String → RulesetType → String) (dflt : Nat)
    (rs : List RulesetContent) : ScriptAcc :=
  rs.foldl (scriptStep conv dflt) ⟨[], [], [], "DIRECT"⟩

/-- The YAML item of one rule provider (lines 344-371).  `enc` stands for
the external `url_safe_base64_encode`. -/
def providerItem (enc : String → String) (managedBase : String)
    (p : ScriptRuleProvider) : YVal :=
  .map [("type", .str "http"),
        ("behavior", .str p.behavior),
        ("url", .str (managedBase ++ "/getruleset?type=" ++ toString p.request_type
                      ++ "&url=" ++ enc p.typed_path)),
        ("path", .str ("./providers/rule-provider_" ++ p.name ++ ".yaml")),
        ("interval", .num p.interval)]

/-- The `rule-providers` mapping: every provider inserted in order under
its name. -/
def providersMapOf (enc : String → String) (managedBase : String)
    (ps : List ScriptRuleProvider) : List (String × YVal) :=
  ps.foldl (fun m p => insertKV m p.name (providerItem enc managedBase p)) []

/-- A single-quote character as a string (the generated script uses it
around log messages). -/
def sglQuote : String := String.singleton (Char.ofNat 39)

/-- One match block of the generated script (lines 377-397). -/
def matchBlock (p : ScriptRuleProvider) : String :=
  "  if ctx.rule_providers[\"" ++ p.name ++ "\"].match(md):\n    ctx.log("
    ++ sglQuote ++ "[Script] matched " ++ p.group ++ " " ++ p.label ++ sglQuote
    ++ ")\n    return \"" ++ p.group ++ "\"\n\n"

/-- Script text of one layout: classical block alone, else domain block or
a blank pair, then ipcidr block or a blank pair. -/
def layoutBlock (l : ScriptRuleLayout) : String :=
  match l.classical with
  | some p => matchBlock p
  | none =>
    (match l.domain with
     | some p => matchBlock p
     | none => "\n\n")
    ++ (match l.ipcidr with
        | some p => matchBlock p
        | none => "\n\n")

/-- The GeoIP dictionary literal of the generated script (lines 404-415). -/
def geoipsLiteral (gs : List (String × String)) : String :=
  "  geoips = \x7b"
    ++ (if gs = [] then ""
        else " " ++ String.intercalate ", "
               (gs.map (fun e => "\"" ++ e.1 ++ "\": \"" ++ e.2 ++ "\"")) ++ " ")
    ++ "\x7d\n"

/-- The complete generated script program (lines 374-424). -/
def scriptCodeOf (acc : ScriptAcc) : String :=
  "def main(ctx, md):\n  host = md[\"host\"]\n\n"
    ++ String.join (acc.layouts.map layoutBlock)
    ++ "\n"
    ++ geoipsLiteral acc.geoips
    ++ "  ip = md[\"dst_ip\"]\n  if ip == \"\":\n    ip = ctx.resolve_ip(host)\n    if ip == \"\":\n      ctx.log("
    ++ sglQuote ++ "[Script] dns lookup error use " ++ acc.final_group
    ++ sglQuote ++ ")\n      return \"" ++ acc.final_group
    ++ "\"\n  for key in geoips:\n    if ctx.geoip(ip) == key:\n      return geoips[key]\n  return \""
    ++ acc.final_group ++ "\""

/-- `build_clash_script_parts`: the rule-provider mapping and the script
source. -/
def build_clash_script_parts (conv : String → RulesetType → String)
    (enc : String → String) (rs : List RulesetContent)
    (managedBase : String) (dflt : Nat) : List (String × YVal) × String :=
  let acc := scriptScan conv dflt rs
  (providersMapOf enc managedBase acc.providers, scriptCodeOf acc)

/-- `proxy_to_clash_yaml` (lines 441-640).  `cpg` stands for the external
`convert_proxy_groups`, producing the generated groups (name plus
serialization) from the configs and the resolved member lists. -/
def proxy_to_clash_yaml (tyName : ProxyType → String) (emit : Proxy → YVal)
    (gg : String → List String)
    (cpg : List ProxyGroupConfig → List (String × List String) → List GenGroup)
    (nodes : List Proxy) (node : YVal) (egroups : List ProxyGroupConfig)
    (clashR : Bool) (ext : ExtraSettings) : YVal :=
  let pr := processNodes tyName emit ext clashR nodes []
  if ext.nodelist then .map [("proxies", .seq pr.1)]
  else
    let proxiesKey := if ext.clash_new_field_name then "proxies" else "Proxy"
    let node1 := insertIfMapping node proxiesKey (.seq pr.1)
    if egroups.isEmpty then node1
    else
      let groupsKey := if ext.clash_new_field_name then "proxy-groups" else "Proxy Group"
      let originalGroups :=
        match yamlGet node1 groupsKey with
        | some (.seq s) => s
        | _ => []
      let filteredMap := egroups.map (fun g => (g.name, resolveGroupMembers gg g))
      let gen := cpg egroups filteredMap
      let merged := mergeGroups originalGroups gen
      insertIfMapping node1 groupsKey (.seq merged)

/-- The continuation of `proxy_to_clash` after a successful template parse
(lines 99-197): convert, then serialize per mode.  `ser` stands for
`serde_yaml::to_string` (an error yields the empty string), `rulesToStr`
for the external `ruleset_to_clash_str`. -/
def proxyToClashCore (tyName : ProxyType → String) (emit : Proxy → YVal)
    (gg : String → List String)
    (cpg : List ProxyGroupConfig → List (String × List String) → List GenGroup)
    (conv : String → RulesetType → String) (enc : String → String)
    (ser : YVal → Option String)
    (rulesToStr : YVal → List RulesetContent → Bool → Bool → String)
    (nodes : List Proxy) (node : YVal) (rs : List RulesetContent)
    (egroups : List ProxyGroupConfig) (clashR : Bool) (ext : ExtraSettings) : String :=
  let yaml1 := proxy_to_clash_yaml tyName emit gg cpg nodes node egroups clashR ext
  if ext.nodelist then (ser yaml1).getD ""
  else if ext.enable_rule_generator = false then (ser yaml1).getD ""
  else if ext.clash_script then
    let yaml2 :=
      if (yamlGet yaml1 "mode").isSome then
        insertIfMapping yaml1 "mode"
          (.str (if ext.clash_script then
                   (if ext.clash_new_field_name then "script" else "Script")
                 else "Rule"))
      else yaml1
    let yaml3 :=
      if ext.managed_config_base ≠ "" then
        let parts := build_clash_script_parts conv enc rs ext.managed_config_base 86400
        insertIfMapping (insertIfMapping yaml2 "rule-providers" (.map parts.1))
          "script" (.map [("code", .str parts.2)])
      else yaml2
    (ser yaml3).getD ""
  else
    let yaml2 := removeIfNull (removeIfNull yaml1 "rules") "Rule"
    let rulesStr := rulesToStr yaml2 rs ext.overwrite_original_rules ext.clash_new_field_name
    ((ser yaml2).getD "") ++ rulesStr

/-- `proxy_to_clash` (lines 77-197).  `parse` stands for
`serde_yaml::from_str` on the base template: a parse failure logs and
returns the empty string; a null template is replaced by an empty
mapping. -/
def proxy_to_clash (tyName : ProxyType → String) (emit : Proxy → YVal)
    (gg : String → List String)
    (cpg : List ProxyGroupConfig → List (String × List String) → List GenGroup)
    (conv : String → RulesetType → String) (enc : String → String)
    (parse : String → Except String YVal) (ser : YVal → Option String)
    (rulesToStr : YVal → List RulesetContent → Bool → Bool → String)
    (nodes : List Proxy) (base_conf : String) (rs : List RulesetContent)
    (egroups : List ProxyGroupConfig) (clashR : Bool) (ext : ExtraSettings) : String :=
  match parse base_conf with
  | .error _ => ""
  | .ok node0 =>
    let node := if yamlIsNull node0 then .map [] else node0
    proxyToClashCore tyName emit gg cpg conv enc ser rulesToStr
      nodes node rs egroups clashR ext

/-- The settings read by the web API (`Settings::current()`): the
configured API access token. -/
structure Settings where
  api_access_token : String

/-- The query of `/getprofile` (`ProfileQuery`). -/
structure ProfileQuery where
  name : String
  token : Option String

/-- `is_api_authorized` (web_api.rs lines 59-66). -/
def is_api_authorized (settings : Settings) (token : Option String) : Bool :=
  if settings.api_access_token = "" then true
  else (token.getD "") = settings.api_access_token

/-- Outcome of the authorization gate of `profile_handler`: either the
early `403 Forbidden` reply, or proceeding to load the named profile. -/
inductive ProfileReply where
  | forbidden
  | proceed (name : String)
deriving DecidableEq

/-- The authorization gate of `profile_handler` (web_api.rs lines
224-228): reply `403 Forbidden` unless `is_api_authorized` accepts the
`token` query parameter; otherwise proceed with the request. -/
def profileHandlerGate (settings : Settings) (q : ProfileQuery) : ProfileReply :=
  if is_api_authorized settings q.token = false then .forbidden
  else .proceed q.name

/-- The request-type code per provider behavior stated by the spec:
6 for classical, 3 for domain, 4 for ipcidr. -/
def behaviorCode (b : String) : Nat :=
  if b = "classical" then 6 else if b = "domain" then 3
  else if b = "ipcidr" then 4 else 0

/-- Sample type-name function (stands for the external `Display`). -/
def sampleTyName : ProxyType → String := fun _ => "SS"

/-- Sample proxy serializer: keeps only the remark. -/
def sampleEmit : Proxy → YVal := fun p => .str p.remark

/-- Sample settings: `filter_deprecated` and `clash_new_field_name` set. -/
def extFD : ExtraSettings :=
  ⟨none, none, none, false, true, true, false, false, false, false, "", "", ""⟩

/-- Sample SS node with the deprecated `chacha20` cipher. -/
def ssChacha : Proxy :=
  ⟨.shadowsocks, "ss-chacha20", "example.com", 443, some "chacha20", some "pwd",
   none, none, 0⟩

/-- Sample SSR node kept by vanilla Clash. -/
def ssrOk : Proxy :=
  ⟨.shadowsocksR, "ssr-ok", "example.com", 443, some "aes-256-cfb", some "pwd",
   some "auth_aes128_sha1", some "tls1.2_ticket_auth", 0⟩

/-- Sample identity converter (stands for the external `convert_ruleset`). -/
def convId : String → RulesetType → String := fun s _ => s

/-- Sample encoder (stands for the external `url_safe_base64_encode`). -/
def encId : String → String := fun s => s

/-- Sample ruleset whose base name is `MOO` and whose content has a domain
rule. -/
def rsMOO : RulesetContent :=
  ⟨"Proxy", "lists/MOO.list", "surge:lists/MOO.list", 0, .surge, "DOMAIN,example.com\n"⟩

/-- Sample template group named `B`. -/
def tmplGroupB : YVal := .map [("name", .str "B"), ("type", .str "select")]

/-- Two sample generated groups that share the name `A` (absent from the
template). -/
def genA1 : GenGroup := ⟨"A", .map [("name", .str "A"), ("v", .num 1)]⟩

/-- Second generated group named `A`. -/
def genA2 : GenGroup := ⟨"A", .map [("name", .str "A"), ("v", .num 2)]⟩

/-- Sample settings in nodelist mode. -/
def extNodelist : ExtraSettings :=
  ⟨none, none, none, false, true, true, false, true, false, false, "", "", ""⟩

/-- Sample settings with the legacy field names
(`clash_new_field_name = false`). -/
def extLegacy : ExtraSettings :=
  ⟨none, none, none, false, true, false, false, false, false, false, "", "", ""⟩

/-- Sample template carrying a legacy group sequence and a mode key. -/
def tmplC : YVal :=
  .map [("Proxy Group", .seq [tmplGroupB]), ("mode", .str "rule")]

/-- Negating the SSR skip condition yields the claimed membership
characterization. -/
theorem shouldSkip_ssr_char (clashR : Bool) (ext : ExtraSettings) (p : Proxy)
    (hT : p.proxy_type = ProxyType.shadowsocksR) (hF : ext.filter_deprecated = true) :
    shouldSkip clashR ext p = false ↔
      (p.protocol.getD "" ∈ CLASHR_PROTOCOLS ∧ p.obfs.getD "" ∈ CLASHR_OBFS
        ∧ (clashR = true ∨ p.encrypt_method.getD "" ∈ CLASH_SSR_CIPHERS)) := by
  have h1 : ¬ (p.proxy_type = ProxyType.snell ∧ p.snell_version ≥ 4) := by
    rw [hT]; rintro ⟨h, -⟩; exact absurd h (by decide)
  have h2 : ¬ (p.proxy_type = ProxyType.shadowsocks ∧ ext.filter_deprecated = true
      ∧ p.encrypt_method = some "chacha20") := by
    rw [hT]; rintro ⟨h, -, -⟩; exact absurd h (by decide)
  have h3 : p.proxy_type = ProxyType.shadowsocksR ∧ ext.filter_deprecated = true := ⟨hT, hF⟩
  unfold shouldSkip
  rw [if_neg h1, if_neg h2, if_pos h3]
  constructor
  · intro hfalse
    by_cases hd : (clashR = false ∧ p.encrypt_method.getD "" ∉ CLASH_SSR_CIPHERS)
        ∨ p.protocol.getD "" ∉ CLASHR_PROTOCOLS ∨ p.obfs.getD "" ∉ CLASHR_OBFS
    · rw [if_pos hd] at hfalse; cases hfalse
    · push_neg at hd
      refine ⟨hd.2.1, hd.2.2, ?_⟩
      by_cases hc : clashR = true
      · exact Or.inl hc
      · exact Or.inr (hd.1 (Bool.not_eq_true clashR ▸ hc))
  · rintro ⟨hb, hob, hor⟩
    rw [if_neg]
    rintro (⟨hcf, ha⟩ | hnb | hnc)
    · rcases hor with hct | has
      · rw [hct] at hcf; cases hcf
      · exact ha has
    · exact hnb hb
    · exact hnc hob

/-- C1: with `filter_deprecated = true`, an SSR proxy is emitted by the
per-node loop iff its protocol is in CLASHR_PROTOCOLS, its obfs is in
CLASHR_OBFS, and (`clash_r` is true or its cipher is in
CLASH_SSR_CIPHERS). -/
theorem c1_ssr_filter (tyName : ProxyType → String) (emit : Proxy → YVal)
    (ext : ExtraSettings) (clashR : Bool) (p : Proxy) (rl : List String)
    (hT : p.proxy_type = ProxyType.shadowsocksR) (hF : ext.filter_deprecated = true) :
    (processNodes tyName emit ext clashR [p] rl).1 ≠ [] ↔
      (p.protocol.getD "" ∈ CLASHR_PROTOCOLS ∧ p.obfs.getD "" ∈ CLASHR_OBFS
        ∧ (clashR = true ∨ p.encrypt_method.getD "" ∈ CLASH_SSR_CIPHERS)) := by
  have hchar := shouldSkip_ssr_char clashR ext p hT hF
  constructor
  · intro hne
    cases hs : shouldSkip clashR ext p with
    | true => exact absurd (by simp [processNodes, hs]) hne
    | false => exact hchar.mp hs
  · intro hc
    have hs : shouldSkip clashR ext p = false := hchar.mpr hc
    simp [processNodes, hs]

/-- Witness for C1 at the repo's own test node `ssr-ok`. -/
theorem c1_ssr_filter_witness :
    (processNodes sampleTyName sampleEmit extFD false [ssrOk] []).1 ≠ [] :=
  (c1_ssr_filter sampleTyName sampleEmit extFD false ssrOk [] rfl rfl).mpr
    ⟨by decide, by decide, Or.inr (by decide)⟩

/-- C2 counterexample: a proxy skipped by the filter (the deprecated SS
chacha20 node, which is emitted nowhere) still pushes its remark onto the
deduplication list, while the claim's kept-only loop records nothing. -/
theorem c2_counterexample :
    (processNodes sampleTyName sampleEmit extFD false [ssChacha] []).1 = []
    ∧ (processNodes sampleTyName sampleEmit extFD false [ssChacha] []).2 = ["ss-chacha20"]
    ∧ (keptOnlyProcess sampleTyName sampleEmit extFD false [ssChacha] []).2 = [] :=
  ⟨rfl, rfl, rfl⟩

/-- C2 (amended): the deduplication list accumulated by the per-node loop
is exactly the processed remark of EVERY input proxy, kept or skipped. -/
theorem c2_dedup_all_nodes (tyName : ProxyType → String) (emit : Proxy → YVal)
    (ext : ExtraSettings) (clashR : Bool) :
    ∀ (nodes : List Proxy) (acc : List String),
      (processNodes tyName emit ext clashR nodes acc).2 = remarksAccum tyName ext nodes acc := by
  intro nodes
  induction nodes with
  | nil => intro acc; rfl
  | cons p ps ih =>
    intro acc
    simp only [processNodes, remarksAccum]
    cases hs : shouldSkip clashR ext p <;> simp [hs, ih]

/-- C7: empty member expansion plus no providers yields exactly
`["DIRECT"]`. -/
theorem c7_direct_injection (gg : String → List String) (g : ProxyGroupConfig)
    (h1 : g.proxies.flatMap gg = []) (h2 : g.using_provider = []) :
    resolveGroupMembers gg g = ["DIRECT"] := by
  simp [resolveGroupMembers, h1, h2]

/-- Witness for C7. -/
theorem c7_direct_injection_witness :
    resolveGroupMembers (fun _ => []) ⟨"G", ["pattern"], []⟩ = ["DIRECT"] :=
  c7_direct_injection (fun _ => []) ⟨"G", ["pattern"], []⟩ rfl rfl

/-- C9: with a non-empty configured token the `/getprofile` gate replies
`403 Forbidden` exactly when the `token` query parameter is not present
and equal to it; with an empty configured token every request proceeds. -/
theorem c9_token_gate (settings : Settings) (q : ProfileQuery) :
    (settings.api_access_token ≠ "" →
      (profileHandlerGate settings q = .forbidden
        ↔ ¬ (q.token = some settings.api_access_token)))
    ∧ (settings.api_access_token = "" →
      profileHandlerGate settings q = .proceed q.name) := by
  constructor
  · intro hne
    have hauth : is_api_authorized settings q.token = true
        ↔ q.token = some settings.api_access_token := by
      unfold is_api_authorized
      rw [if_neg hne]
      cases q.token with
      | none =>
        simp only [Option.getD, decide_eq_true_eq]
        exact ⟨fun h => absurd h.symm hne, fun h => by cases h⟩
      | some t =>
        simp only [Option.getD, decide_eq_true_eq, Option.some.injEq]
    constructor
    · intro hfb
      intro heq
      have : is_api_authorized settings q.token = true := hauth.mpr heq
      rw [profileHandlerGate, this] at hfb
      simp at hfb
    · intro hneq
      have : is_api_authorized settings q.token = false := by
        cases ha : is_api_authorized settings q.token with
        | true => exact absurd (hauth.mp ha) hneq
        | false => rfl
      rw [profileHandlerGate, this]
      simp
  · intro he
    rw [profileHandlerGate]
    have : is_api_authorized settings q.token = true := by
      unfold is_api_authorized; rw [if_pos he]
    rw [this]
    simp

/-- Witness for C9: a wrong token is rejected, an empty configured token
accepts a token-less request. -/
theorem c9_token_gate_witness :
    profileHandlerGate ⟨"tok"⟩ ⟨"p", some "bad"⟩ = .forbidden
    ∧ profileHandlerGate ⟨""⟩ ⟨"p", none⟩ = .proceed "p" :=
  ⟨((c9_token_gate ⟨"tok"⟩ ⟨"p", some "bad"⟩).1 (by decide)).mpr (by decide),
   (c9_token_gate ⟨""⟩ ⟨"p", none⟩).2 rfl⟩

/-- Looking up a different key is unaffected by an insertion. -/
theorem lookupKV_insertKV_ne (kvs : List (String × YVal)) (k k' : String) (v : YVal)
    (h : k' ≠ k) : lookupKV (insertKV kvs k v) k' = lookupKV kvs k' := by
  induction kvs with
  | nil =>
    simp only [insertKV, lookupKV]
    rw [if_neg (fun he => h he.symm)]
  | cons hd tl ih =>
    obtain ⟨k0, v0⟩ := hd
    simp only [insertKV]
    by_cases he : k0 = k
    · rw [if_pos he]
      simp only [lookupKV]
      rw [if_neg (fun h2 => h (h2.symm.trans he)), if_neg (fun h2 => h (h2.symm.trans he))]
    · rw [if_neg he]
      simp only [lookupKV]
      by_cases h2 : k0 = k'
      · rw [if_pos h2, if_pos h2]
      · rw [if_neg h2, if_neg h2]
        exact ih

/-- Reading a different key through `insertIfMapping` is unchanged. -/
theorem yamlGet_insertIfMapping_ne (v : YVal) (k k' : String) (x : YVal)
    (h : k' ≠ k) : yamlGet (insertIfMapping v k x) k' = yamlGet v k' := by
  cases v with
  | map kvs => exact lookupKV_insertKV_ne kvs k k' x h
  | null => rfl
  | bool b => rfl
  | num n => rfl
  | str s => rfl
  | seq xs => rfl

/-- C8: a template parse failure yields the empty string; a null template
behaves exactly like an empty mapping. -/
theorem c8_template_parse (tyName : ProxyType → String) (emit : Proxy → YVal)
    (gg : String → List String)
    (cpg : List ProxyGroupConfig → List (String × List String) → List GenGroup)
    (conv : String → RulesetType → String) (enc : String → String)
    (parse : String → Except String YVal) (ser : YVal → Option String)
    (rulesToStr : YVal → List RulesetContent → Bool → Bool → String)
    (nodes : List Proxy) (base_conf : String) (rs : List RulesetContent)
    (egroups : List ProxyGroupConfig) (clashR : Bool) (ext : ExtraSettings) :
    (∀ e, parse base_conf = .error e →
      proxy_to_clash tyName emit gg cpg conv enc parse ser rulesToStr
        nodes base_conf rs egroups clashR ext = "")
    ∧ (parse base_conf = .ok .null →
      proxy_to_clash tyName emit gg cpg conv enc parse ser rulesToStr
        nodes base_conf rs egroups clashR ext
        = proxyToClashCore tyName emit gg cpg conv enc ser rulesToStr
            nodes (.map []) rs egroups clashR ext) := by
  constructor
  · intro e he
    unfold proxy_to_clash
    rw [he]
  · intro hok
    unfold proxy_to_clash
    rw [hok]
    rfl

/-- Witness for C8 at concrete parse results. -/
theorem c8_template_parse_witness :
    proxy_to_clash sampleTyName sampleEmit (fun _ => []) (fun _ _ => []) convId encId
      (fun _ => .error "boom") (fun _ => some "Y") (fun _ _ _ _ => "")
      [ssrOk] "base" [] [] false extFD = ""
    ∧ proxy_to_clash sampleTyName sampleEmit (fun _ => []) (fun _ _ => []) convId encId
        (fun _ => .ok .null) (fun _ => some "Y") (fun _ _ _ _ => "")
        [ssrOk] "base" [] [] false extFD
      = proxyToClashCore sampleTyName sampleEmit (fun _ => []) (fun _ _ => []) convId encId
          (fun _ => some "Y") (fun _ _ _ _ => "") [ssrOk] (.map []) [] [] false extFD :=
  ⟨(c8_template_parse sampleTyName sampleEmit (fun _ => []) (fun _ _ => []) convId encId
      (fun _ => .error "boom") (fun _ => some "Y") (fun _ _ _ _ => "")
      [ssrOk] "base" [] [] false extFD).1 "boom" rfl,
   (c8_template_parse sampleTyName sampleEmit (fun _ => []) (fun _ _ => []) convId encId
      (fun _ => .ok .null) (fun _ => some "Y") (fun _ _ _ _ => "")
      [ssrOk] "base" [] [] false extFD).2 rfl⟩

/-- C3: in nodelist mode the whole output is the serialization of the
mapping with the single key `proxies` holding the kept proxies, whatever
the template, extra groups, rulesets and field-name setting are. -/
theorem c3_nodelist (tyName : ProxyType → String) (emit : Proxy → YVal)
    (gg : String → List String)
    (cpg : List ProxyGroupConfig → List (String × List String) → List GenGroup)
    (conv : String → RulesetType → String) (enc : String → String)
    (parse : String → Except String YVal) (ser : YVal → Option String)
    (rulesToStr : YVal → List RulesetContent → Bool → Bool → String)
    (nodes : List Proxy) (base_conf : String) (rs : List RulesetContent)
    (egroups : List ProxyGroupConfig) (clashR : Bool) (ext : ExtraSettings)
    (tmpl : YVal) (hP : parse base_conf = .ok tmpl) (hN : ext.nodelist = true) :
    proxy_to_clash tyName emit gg cpg conv enc parse ser rulesToStr
      nodes base_conf rs egroups clashR ext
      = (ser (.map [("proxies",
          .seq (processNodes tyName emit ext clashR nodes []).1)])).getD "" := by
  unfold proxy_to_clash
  rw [hP]
  unfold proxyToClashCore proxy_to_clash_yaml
  simp [hN]

/-- Witness for C3. -/
theorem c3_nodelist_witness :
    proxy_to_clash sampleTyName sampleEmit (fun _ => []) (fun _ _ => []) convId encId
      (fun _ => .ok (.map [("mode", .str "rule")])) (fun _ => some "Y")
      (fun _ _ _ _ => "") [ssrOk] "base" [] [] false extNodelist = "Y" :=
  c3_nodelist sampleTyName sampleEmit (fun _ => []) (fun _ _ => []) convId encId
    (fun _ => .ok (.map [("mode", .str "rule")])) (fun _ => some "Y")
    (fun _ _ _ _ => "") [ssrOk] "base" [] [] false extNodelist
    (.map [("mode", .str "rule")]) rfl rfl

/-- C10: with no extra groups (and nodelist off) the conversion only
inserts the proxies key; every other top-level key of the template,
including `proxy-groups` and `Proxy Group`, reads back unchanged. -/
theorem c10_groups_frame (tyName : ProxyType → String) (emit : Proxy → YVal)
    (gg : String → List String)
    (cpg : List ProxyGroupConfig → List (String × List String) → List GenGroup)
    (nodes : List Proxy) (tmpl : YVal) (egroups : List ProxyGroupConfig)
    (clashR : Bool) (ext : ExtraSettings)
    (hG : egroups = []) (hN : ext.nodelist = false) :
    proxy_to_clash_yaml tyName emit gg cpg nodes tmpl egroups clashR ext
      = insertIfMapping tmpl (if ext.clash_new_field_name then "proxies" else "Proxy")
          (.seq (processNodes tyName emit ext clashR nodes []).1)
    ∧ ∀ k, k ≠ (if ext.clash_new_field_name then "proxies" else "Proxy") →
        yamlGet (proxy_to_clash_yaml tyName emit gg cpg nodes tmpl egroups clashR ext) k
          = yamlGet tmpl k := by
  subst hG
  have h1 : proxy_to_clash_yaml tyName emit gg cpg nodes tmpl [] clashR ext
      = insertIfMapping tmpl (if ext.clash_new_field_name then "proxies" else "Proxy")
          (.seq (processNodes tyName emit ext clashR nodes []).1) := by
    unfold proxy_to_clash_yaml
    simp [hN]
  refine ⟨h1, fun k hk => ?_⟩
  rw [h1]
  exact yamlGet_insertIfMapping_ne tmpl _ k _ hk

/-- Witness for C10 on a legacy-field template: the `Proxy Group` sequence
reads back unchanged. -/
theorem c10_groups_frame_witness :
    proxy_to_clash_yaml sampleTyName sampleEmit (fun _ => []) (fun _ _ => [])
      [ssrOk] tmplC [] false extLegacy
      = insertIfMapping tmplC "Proxy" (.seq [.str "ssr-ok"])
    ∧ yamlGet (proxy_to_clash_yaml sampleTyName sampleEmit (fun _ => []) (fun _ _ => [])
        [ssrOk] tmplC [] false extLegacy) "Proxy Group"
      = yamlGet tmplC "Proxy Group" :=
  ⟨(c10_groups_frame sampleTyName sampleEmit (fun _ => []) (fun _ _ => [])
      [ssrOk] tmplC [] false extLegacy rfl rfl).1,
   (c10_groups_frame sampleTyName sampleEmit (fun _ => []) (fun _ _ => [])
      [ssrOk] tmplC [] false extLegacy rfl rfl).2 "Proxy Group" (by decide)⟩

/-- C5: a non-empty, non-inline ruleset with a non-empty conversion whose
base name is `MOO` or `Download` — or whose converted content sets neither
flag — contributes exactly one provider: the classical one with
request-type 6, named exactly `provider_base_name`. -/
theorem c5_classical_override (conv : String → RulesetType → String) (dflt : Nat)
    (acc : ScriptAcc) (r : RulesetContent)
    (h1 : isEmptyStr r.content = false)
    (h2 : startsWithStr r.content "[]" = false)
    (h3 : isEmptyStr (trimStr (conv r.content r.rule_type)) = false)
    (h4 : providerBaseName r.rule_path = "MOO" ∨ providerBaseName r.rule_path = "Download"
          ∨ (hasDomainRules (conv r.content r.rule_type) = false
             ∧ hasIpcidrRules (conv r.content r.rule_type) = false)) :
    (scriptStep conv dflt acc r).providers
      = acc.providers ++ [⟨providerBaseName r.rule_path, "classical", 6, r.group, "rule",
          r.rule_path_typed, if r.update_interval > 0 then r.update_interval else dflt⟩] := by
  unfold scriptStep
  simp only [h1, h2, h3, Bool.false_eq_true, if_false]
  rw [if_pos h4]

/-- Witness for C5 at the `MOO` ruleset, whose converted content does
contain a DOMAIN line. -/
theorem c5_classical_override_witness :
    (scriptStep convId 86400 ⟨[], [], [], "DIRECT"⟩ rsMOO).providers
      = [⟨"MOO", "classical", 6, "Proxy", "rule", "surge:lists/MOO.list", 86400⟩] :=
  c5_classical_override convId 86400 ⟨[], [], [], "DIRECT"⟩ rsMOO rfl rfl rfl (Or.inl rfl)

/-- The `behavior` entry of a provider item. -/
theorem providerItem_behavior (enc : String → String) (mb : String)
    (p : ScriptRuleProvider) :
    yamlGet (providerItem enc mb p) "behavior" = some (.str p.behavior) := by
  have h1 : ("type" : String) ≠ "behavior" := by decide
  simp [providerItem, yamlGet, lookupKV, h1]

/-- The `url` entry of a provider item. -/
theorem providerItem_url (enc : String → String) (mb : String)
    (p : ScriptRuleProvider) :
    yamlGet (providerItem enc mb p) "url"
      = some (.str (mb ++ "/getruleset?type=" ++ toString p.request_type
                    ++ "&url=" ++ enc p.typed_path)) := by
  have h1 : ("type" : String) ≠ "url" := by decide
  have h2 : ("behavior" : String) ≠ "url" := by decide
  simp [providerItem, yamlGet, lookupKV, h1, h2]

/-- Entries of an insertion are old entries or the inserted pair. -/
theorem mem_insertKV {x : String × YVal} :
    ∀ (m : List (String × YVal)) (k : String) (v : YVal),
      x ∈ insertKV m k v → x ∈ m ∨ x = (k, v) := by
  intro m
  induction m with
  | nil =>
    intro k v h
    simp only [insertKV] at h
    exact Or.inr (List.mem_singleton.mp h)
  | cons hd tl ih =>
    intro k v h
    obtain ⟨k0, v0⟩ := hd
    simp only [insertKV] at h
    by_cases he : k0 = k
    · rw [if_pos he] at h
      rcases List.mem_cons.mp h with h | h
      · exact Or.inr (by rw [h, he])
      · exact Or.inl (List.mem_cons_of_mem _ h)
    · rw [if_neg he] at h
      rcases List.mem_cons.mp h with h | h
      · exact Or.inl (List.mem_cons.mpr (Or.inl h))
      · rcases ih k v h with h' | h'
        · exact Or.inl (List.mem_cons_of_mem _ h')
        · exact Or.inr h'

/-- Entries of the provider map are items of listed providers. -/
theorem mem_providersMapOf (enc : String → String) (mb : String) :
    ∀ (ps : List ScriptRuleProvider) (m0 : List (String × YVal)) (x : String × YVal),
      x ∈ ps.foldl (fun m p => insertKV m p.name (providerItem enc mb p)) m0 →
      x ∈ m0 ∨ ∃ p ∈ ps, x.2 = providerItem enc mb p := by
  intro ps
  induction ps with
  | nil => intro m0 x h; exact Or.inl h
  | cons p ps ih =>
    intro m0 x h
    rw [List.foldl_cons] at h
    rcases ih (insertKV m0 p.name (providerItem enc mb p)) x h with h' | h'
    · rcases mem_insertKV _ _ _ h' with h'' | h''
      · exact Or.inl h''
      · exact Or.inr ⟨p, List.mem_cons_self _ _, by rw [h'']⟩
    · obtain ⟨q, hq, hx⟩ := h'
      exact Or.inr ⟨q, List.mem_cons_of_mem _ hq, hx⟩

/-- Every provider pushed by one scan step pairs its behavior with the
spec's request-type code and carries the ruleset's typed path. -/
theorem scriptStep_providers_mem (conv : String → RulesetType → String) (dflt : Nat)
    (acc : ScriptAcc) (r : RulesetContent) (p : ScriptRuleProvider)
    (h : p ∈ (scriptStep conv dflt acc r).providers) :
    p ∈ acc.providers
      ∨ (p.request_type = behaviorCode p.behavior ∧ p.typed_path = r.rule_path_typed) := by
  unfold scriptStep at h
  by_cases c1 : isEmptyStr r.content = true
  · rw [if_pos c1] at h
    exact Or.inl h
  · rw [if_neg c1] at h
    by_cases c2 : startsWithStr r.content "[]" = true
    · rw [if_pos c2] at h
      dsimp only at h
      by_cases c3 : startsWithStr (trimStr (dropStr r.content 2)) "GEOIP," = true
      · rw [if_pos c3] at h
        cases hg : (splitStr ',' (trimStr (dropStr r.content 2))).get? 1 with
        | some code => rw [hg] at h; exact Or.inl h
        | none => rw [hg] at h; exact Or.inl h
      · rw [if_neg c3] at h
        by_cases c4 : trimStr (dropStr r.content 2) = "FINAL"
            ∨ trimStr (dropStr r.content 2) = "MATCH"
        · rw [if_pos c4] at h
          exact Or.inl h
        · rw [if_neg c4] at h
          exact Or.inl h
    · rw [if_neg c2] at h
      dsimp only at h
      by_cases c5 : isEmptyStr (trimStr (conv r.content r.rule_type)) = true
      · rw [if_pos c5] at h
        exact Or.inl h
      · rw [if_neg c5] at h
        by_cases c6 : providerBaseName r.rule_path = "MOO"
            ∨ providerBaseName r.rule_path = "Download"
            ∨ (hasDomainRules (conv r.content r.rule_type) = false
               ∧ hasIpcidrRules (conv r.content r.rule_type) = false)
        · rw [if_pos c6] at h
          rcases List.mem_append.mp h with h | h
          · exact Or.inl h
          · right
            rw [List.mem_singleton.mp h]
            exact ⟨rfl, rfl⟩
        · rw [if_neg c6] at h
          rcases List.mem_append.mp h with h | h
          · rcases List.mem_append.mp h with h | h
            · exact Or.inl h
            · right
              by_cases c7 : hasDomainRules (conv r.content r.rule_type) = true
              · rw [if_pos c7] at h
                rw [List.mem_singleton.mp h]
                exact ⟨rfl, rfl⟩
              · rw [if_neg c7] at h
                cases h
          · right
            by_cases c8 : hasIpcidrRules (conv r.content r.rule_type) = true
                ∧ providerBaseName r.rule_path ≠ "Apple"
            · rw [if_pos c8] at h
              rw [List.mem_singleton.mp h]
              exact ⟨rfl, rfl⟩
            · rw [if_neg c8] at h
              cases h

/-- Every provider accumulated by the scan satisfies any invariant that
holds of the initial providers and of every provider a step can push: one
pairing its behavior with the spec's request-type code and carrying the
typed path of one of the scanned rulesets. -/
theorem scan_providers_wf (conv : String → RulesetType → String) (dflt : Nat)
    (P : ScriptRuleProvider → Prop) :
    ∀ (rs : List RulesetContent) (acc : ScriptAcc),
      (∀ p ∈ acc.providers, P p) →
      (∀ r ∈ rs, ∀ p : ScriptRuleProvider,
        p.request_type = behaviorCode p.behavior → p.typed_path = r.rule_path_typed → P p) →
      ∀ p ∈ (List.foldl (scriptStep conv dflt) acc rs).providers, P p := by
  intro rs
  induction rs with
  | nil => intro acc hacc _ p hp; exact hacc p hp
  | cons r rs ih =>
    intro acc hacc hnew p hp
    rw [List.foldl_cons] at hp
    refine ih _ ?_ ?_ p hp
    · intro q hq
      rcases scriptStep_providers_mem conv dflt acc r q hq with h | h
      · exact hacc q h
      · exact hnew r (List.mem_cons_self r rs) q h.1 h.2
    · intro r' hr' q h1 h2
      exact hnew r' (List.mem_cons_of_mem r hr') q h1 h2

/-- C4: every emitted rule-provider entry carries a `url` equal to
`<prefix>/getruleset?type=<code>&url=<enc(rule_path_typed)>`, where the
encoded payload is the typed path of an originating ruleset of the input
array and the code is determined by the entry's behavior (6 classical,
3 domain, 4 ipcidr). -/
theorem c4_provider_url (conv : String → RulesetType → String) (enc : String → String)
    (rs : List RulesetContent) (mb : String) (dflt : Nat) (nm : String) (it : YVal)
    (hmem : (nm, it) ∈ (build_clash_script_parts conv enc rs mb dflt).1) :
    ∃ r ∈ rs, ∃ b, yamlGet it "behavior" = some (.str b)
      ∧ yamlGet it "url" = some (.str (mb ++ "/getruleset?type="
          ++ toString (behaviorCode b) ++ "&url=" ++ enc r.rule_path_typed)) := by
  unfold build_clash_script_parts providersMapOf at hmem
  rcases mem_providersMapOf enc mb _ [] _ hmem with h | h
  · cases h
  · obtain ⟨p, hp, hit⟩ := h
    have hwf : p.request_type = behaviorCode p.behavior
        ∧ ∃ r ∈ rs, p.typed_path = r.rule_path_typed := by
      refine scan_providers_wf conv dflt
        (fun q => q.request_type = behaviorCode q.behavior
          ∧ ∃ r ∈ rs, q.typed_path = r.rule_path_typed)
        rs ⟨[], [], [], "DIRECT"⟩ ?_ ?_ p hp
      · intro q hq
        cases hq
      · intro r hr q h1 h2
        exact ⟨h1, r, hr, h2⟩
    obtain ⟨hreq, r, hr, htp⟩ := hwf
    refine ⟨r, hr, p.behavior, ?_, ?_⟩
    · rw [show it = providerItem enc mb p from hit]
      exact providerItem_behavior enc mb p
    · rw [show it = providerItem enc mb p from hit, providerItem_url, hreq, htp]

/-- Witness for C4 at the `MOO` provider. -/
theorem c4_provider_url_witness :
    ∃ r ∈ [rsMOO], ∃ b,
      yamlGet (YVal.map [("type", .str "http"), ("behavior", .str "classical"),
        ("url", .str "https://x/y/getruleset?type=6&url=surge:lists/MOO.list"),
        ("path", .str "./providers/rule-provider_MOO.yaml"),
        ("interval", .num 86400)]) "behavior" = some (.str b)
      ∧ yamlGet (YVal.map [("type", .str "http"), ("behavior", .str "classical"),
          ("url", .str "https://x/y/getruleset?type=6&url=surge:lists/MOO.list"),
          ("path", .str "./providers/rule-provider_MOO.yaml"),
          ("interval", .num 86400)]) "url"
        = some (.str ("https://x/y" ++ "/getruleset?type=" ++ toString (behaviorCode b)
            ++ "&url=" ++ encId r.rule_path_typed)) :=
  c4_provider_url convId encId [rsMOO] "https://x/y" 86400 "MOO"
    (YVal.map [("type", .str "http"), ("behavior", .str "classical"),
      ("url", .str "https://x/y/getruleset?type=6&url=surge:lists/MOO.list"),
      ("path", .str "./providers/rule-provider_MOO.yaml"),
      ("interval", .num 86400)])
    (List.mem_singleton.mpr rfl)

/-- A failed replacement scan means no element carries the generated
group's name. -/
theorem replaceFirst_none (g : GenGroup) :
    ∀ (os : List YVal), replaceFirst g os = none →
      ∀ e ∈ os, ¬ (yamlNameOf e = some g.name) := by
  intro os
  induction os with
  | nil => intro _ e he; cases he
  | cons x xs ih =>
    intro h e he
    simp only [replaceFirst] at h
    by_cases hx : yamlNameOf x = some g.name
    · rw [if_pos hx] at h; cases h
    · rw [if_neg hx] at h
      cases hr : replaceFirst g xs with
      | some ys => rw [hr] at h; cases h
      | none =>
        rcases List.mem_cons.mp he with rfl | hmem
        · exact hx
        · exact ih hr e hmem

/-- A successful replacement scan splits the list at the first same-named
element and substitutes the generated group's serialization there. -/
theorem replaceFirst_some (g : GenGroup) :
    ∀ (os os' : List YVal), replaceFirst g os = some os' →
      ∃ pre e post, os = pre ++ e :: post ∧ os' = pre ++ g.yaml :: post
        ∧ yamlNameOf e = some g.name ∧ ∀ x ∈ pre, ¬ (yamlNameOf x = some g.name) := by
  intro os
  induction os with
  | nil => intro os' h; simp [replaceFirst] at h
  | cons x xs ih =>
    intro os' h
    simp only [replaceFirst] at h
    by_cases hx : yamlNameOf x = some g.name
    · rw [if_pos hx] at h
      injection h with h2
      subst h2
      exact ⟨[], x, xs, rfl, rfl, hx, fun y hy => absurd hy (List.not_mem_nil y)⟩
    · rw [if_neg hx] at h
      cases hr : replaceFirst g xs with
      | none => rw [hr] at h; cases h
      | some ys =>
        rw [hr] at h
        injection h with h2
        subst h2
        obtain ⟨pre, e, post, hxs, hys, he, hpre⟩ := ih ys hr
        refine ⟨x :: pre, e, post, ?_, ?_, he, ?_⟩
        · rw [hxs]; rfl
        · rw [hys]; rfl
        · intro y hy
          rcases List.mem_cons.mp hy with rfl | hy'
          · exact hx
          · exact hpre y hy'

/-- An element whose name is absent from the generated list is found by no
generated group. -/
theorem find?_gen_none {gs : List GenGroup} {v : YVal} {nm : String}
    (hv : yamlNameOf v = some nm) (hnot : nm ∉ gs.map GenGroup.name) :
    gs.find? (fun g => yamlNameOf v = some g.name) = none := by
  apply List.find?_eq_none.mpr
  intro x hx
  simp only [hv, decide_eq_true_eq, Option.some.injEq]
  intro heq
  exact hnot (by rw [heq]; exact List.mem_map_of_mem _ hx)

/-- Appending an unmatched generated group commutes with the claim's
reading of the merge. -/
theorem claimMerge_append_single (orig : List YVal) (gs : List GenGroup) (g : GenGroup)
    (hCohg : yamlNameOf g.yaml = some g.name)
    (hg : g.name ∉ gs.map GenGroup.name)
    (hnone : ∀ e ∈ orig, ¬ (yamlNameOf e = some g.name)) :
    claimMergeGroups (orig ++ [g.yaml]) gs = claimMergeGroups orig (g :: gs) := by
  unfold claimMergeGroups
  have hfind : gs.find? (fun g' => yamlNameOf g.yaml = some g'.name) = none :=
    find?_gen_none hCohg hg
  have hmap : (orig ++ [g.yaml]).map
      (fun e => ((gs.find? (fun g' => yamlNameOf e = some g'.name)).map GenGroup.yaml).getD e)
      = orig.map
          (fun e => ((gs.find? (fun g' => yamlNameOf e = some g'.name)).map GenGroup.yaml).getD e)
        ++ [g.yaml] := by
    rw [List.map_append]
    congr 1
    simp [hfind]
  have hmap2 : orig.map
      (fun e => (((g :: gs).find? (fun g' => yamlNameOf e = some g'.name)).map GenGroup.yaml).getD e)
      = orig.map
          (fun e => ((gs.find? (fun g' => yamlNameOf e = some g'.name)).map GenGroup.yaml).getD e) := by
    apply List.map_congr_left
    intro e he
    rw [List.find?_cons_of_neg]
    simp [hnone e he]
  have hany : orig.any (fun e => yamlNameOf e = some g.name) = false := by
    rw [List.any_eq_false]
    intro e he
    simp [hnone e he]
  have hfilter2 : (g :: gs).filter (fun h => ! orig.any (fun e => yamlNameOf e = some h.name))
      = g :: gs.filter (fun h => ! orig.any (fun e => yamlNameOf e = some h.name)) := by
    rw [List.filter_cons_of_pos]
    simp [hany]
  have hfilter1 : gs.filter
      (fun h => ! (orig ++ [g.yaml]).any (fun e => yamlNameOf e = some h.name))
      = gs.filter (fun h => ! orig.any (fun e => yamlNameOf e = some h.name)) := by
    apply List.filter_congr
    intro h hh
    have hne : ¬ (g.name = h.name) := fun heq => hg (heq ▸ List.mem_map_of_mem _ hh)
    simp [List.any_append, hCohg, hne]
  rw [hmap, hmap2, hfilter1, hfilter2]
  rw [List.append_assoc]
  rfl

/-- Replacing the first same-named element commutes with the claim's
reading of the merge. -/
theorem claimMerge_replace (pre post : List YVal) (e : YVal) (gs : List GenGroup) (g : GenGroup)
    (hCohg : yamlNameOf g.yaml = some g.name)
    (hg : g.name ∉ gs.map GenGroup.name)
    (he : yamlNameOf e = some g.name)
    (hpre : ∀ x ∈ pre, ¬ (yamlNameOf x = some g.name))
    (hpost : ∀ x ∈ post, ¬ (yamlNameOf x = some g.name)) :
    claimMergeGroups (pre ++ g.yaml :: post) gs
      = claimMergeGroups (pre ++ e :: post) (g :: gs) := by
  unfold claimMergeGroups
  have hfind : gs.find? (fun g' => yamlNameOf g.yaml = some g'.name) = none :=
    find?_gen_none hCohg hg
  have h1 : ((gs.find? (fun g' => yamlNameOf g.yaml = some g'.name)).map GenGroup.yaml).getD g.yaml
      = g.yaml := by
    simp [hfind]
  have h2 : (((g :: gs).find? (fun g' => yamlNameOf e = some g'.name)).map GenGroup.yaml).getD e
      = g.yaml := by
    rw [List.find?_cons_of_pos]
    · simp
    · simp [he]
  have h3 : pre.map
      (fun x => (((g :: gs).find? (fun g' => yamlNameOf x = some g'.name)).map GenGroup.yaml).getD x)
      = pre.map
          (fun x => ((gs.find? (fun g' => yamlNameOf x = some g'.name)).map GenGroup.yaml).getD x) := by
    apply List.map_congr_left
    intro x hx
    rw [List.find?_cons_of_neg]
    simp [hpre x hx]
  have h4 : post.map
      (fun x => (((g :: gs).find? (fun g' => yamlNameOf x = some g'.name)).map GenGroup.yaml).getD x)
      = post.map
          (fun x => ((gs.find? (fun g' => yamlNameOf x = some g'.name)).map GenGroup.yaml).getD x) := by
    apply List.map_congr_left
    intro x hx
    rw [List.find?_cons_of_neg]
    simp [hpost x hx]
  have h5 : (g :: gs).filter
      (fun h => ! (pre ++ e :: post).any (fun x => yamlNameOf x = some h.name))
      = gs.filter (fun h => ! (pre ++ e :: post).any (fun x => yamlNameOf x = some h.name)) := by
    rw [List.filter_cons_of_neg]
    have : (pre ++ e :: post).any (fun x => yamlNameOf x = some g.name) = true :=
      List.any_eq_true.mpr ⟨e, List.mem_append.mpr (Or.inr (List.mem_cons_self e post)),
        by simp [he]⟩
    simp [this]
  have h6 : gs.filter
      (fun h => ! (pre ++ g.yaml :: post).any (fun x => yamlNameOf x = some h.name))
      = gs.filter (fun h => ! (pre ++ e :: post).any (fun x => yamlNameOf x = some h.name)) := by
    apply List.filter_congr
    intro h hh
    simp [List.any_append, List.any_cons, hCohg, he]
  simp only [List.map_append, List.map_cons]
  rw [h1, h2, h3, h4, h5, h6]

/-- C6 counterexample: two generated groups sharing a name that matches no
template group.  The merge loop appends the first and then REPLACES it
with the second, so the output has 2 entries where the claim's reading
demands 3 (both generated groups appended after the template group). -/
theorem c6_group_replacement_counterexample :
    mergeGroups [tmplGroupB] [genA1, genA2]
      ≠ claimMergeGroups [tmplGroupB] [genA1, genA2] := by
  intro h
  exact absurd (congrArg List.length h) (by decide)

/-- C6 (amended): when the generated groups carry pairwise distinct names
(and template group names are distinct), a generated group whose name
matches a template group replaces it at its original index, every other
generated group is appended in order after all existing groups, and
existing groups keep their relative order — that is, the merge agrees
with the claim's reading.  The coherence hypothesis records that a
generated group's serialization carries its own name. -/
theorem c6_group_replacement_amended (orig : List YVal) (gen : List GenGroup)
    (hCoh : ∀ g ∈ gen, yamlNameOf g.yaml = some g.name)
    (hGen : (gen.map GenGroup.name).Nodup)
    (hOrig : (orig.filterMap yamlNameOf).Nodup) :
    mergeGroups orig gen = claimMergeGroups orig gen := by
  induction gen generalizing orig with
  | nil => simp [mergeGroups, claimMergeGroups]
  | cons g gs ih =>
    rw [List.map_cons] at hGen
    have hg : g.name ∉ gs.map GenGroup.name := (List.nodup_cons.mp hGen).1
    have hGen' : (gs.map GenGroup.name).Nodup := (List.nodup_cons.mp hGen).2
    have hCohg : yamlNameOf g.yaml = some g.name := hCoh g (List.mem_cons_self g gs)
    have hCoh' : ∀ x ∈ gs, yamlNameOf x.yaml = some x.name :=
      fun x hx => hCoh x (List.mem_cons_of_mem g hx)
    have hstep : mergeGroups orig (g :: gs) = mergeGroups (mergeStep orig g) gs := rfl
    rw [hstep]
    cases hrep : replaceFirst g orig with
    | none =>
      have hnone := replaceFirst_none g orig hrep
      have hms : mergeStep orig g = orig ++ [g.yaml] := by rw [mergeStep, hrep]
      have hnm : g.name ∉ orig.filterMap yamlNameOf := by
        intro hmem
        obtain ⟨x, hx, hxe⟩ := List.mem_filterMap.mp hmem
        exact hnone x hx hxe
      have hOrig' : ((orig ++ [g.yaml]).filterMap yamlNameOf).Nodup := by
        rw [List.filterMap_append]
        refine List.Nodup.append hOrig ?_ ?_
        · simp [List.filterMap_cons, hCohg]
        · intro a ha hb
          simp [List.filterMap_cons, hCohg] at hb
          subst hb
          exact hnm ha
      rw [hms, ih (orig ++ [g.yaml]) hCoh' hGen' hOrig']
      exact claimMerge_append_single orig gs g hCohg hg hnone
    | some os' =>
      obtain ⟨pre, e, post, horig, hos, he, hpre⟩ := replaceFirst_some g orig os' hrep
      subst horig
      subst hos
      have hms : mergeStep (pre ++ e :: post) g = pre ++ g.yaml :: post := by
        rw [mergeStep, hrep]
      have hfm : (pre ++ e :: post).filterMap yamlNameOf
          = pre.filterMap yamlNameOf ++ g.name :: post.filterMap yamlNameOf := by
        rw [List.filterMap_append, List.filterMap_cons, he]
      have hpost : ∀ x ∈ post, ¬ (yamlNameOf x = some g.name) := by
        have h2 : (g.name :: post.filterMap yamlNameOf).Nodup := by
          have h3 := hOrig
          rw [hfm] at h3
          exact h3.of_append_right
        intro x hx hxe
        exact (List.nodup_cons.mp h2).1 (List.mem_filterMap.mpr ⟨x, hx, hxe⟩)
      have hOrig' : ((pre ++ g.yaml :: post).filterMap yamlNameOf).Nodup := by
        have hfm2 : (pre ++ g.yaml :: post).filterMap yamlNameOf
            = pre.filterMap yamlNameOf ++ g.name :: post.filterMap yamlNameOf := by
          rw [List.filterMap_append, List.filterMap_cons, hCohg]
        rw [hfm2, ← hfm]
        exact hOrig
      rw [hms, ih (pre ++ g.yaml :: post) hCoh' hGen' hOrig']
      exact claimMerge_replace pre post e gs g hCohg hg he hpre hpost

/-- Witness for the amended C6 at a concrete template and one generated
group. -/
theorem c6_group_replacement_witness :
    mergeGroups [tmplGroupB] [genA1] = claimMergeGroups [tmplGroupB] [genA1] :=
  c6_group_replacement_amended [tmplGroupB] [genA1] (by decide) (by decide) (by decide)
